import Mathlib

/-!
Shallow embedding of the N-body gravitational simulation engine of
SolarSystemSimulator (src/s.py).  Positions, velocities and forces are
2-D real vectors modelled as pairs of reals; Python float arithmetic is
modelled by exact real arithmetic.  Python object identity inside the
body list is modelled by the list index: the simulation only ever stores
each body object once, so `body != self` holds exactly for indices other
than the index of `self`.
-/

namespace SolarSim

/-- Gravitational constant, module-level `G` in the source. -/
noncomputable def G : ℝ := 6.67430e-11

/-- Astronomical unit, module-level `AU` in the source. -/
noncomputable def AU : ℝ := 1.496e11

/-- Seconds per simulated day, module-level `TIME_STEP` in the source. -/
noncomputable def TIME_STEP : ℝ := 3600 * 24

/-- Componentwise division of a 2-D vector by a scalar, mirroring numpy
`vec / c`. -/
noncomputable def vdiv (v : ℝ × ℝ) (c : ℝ) : ℝ × ℝ := (v.1 / c, v.2 / c)

/-- Squared Euclidean norm of a 2-D vector. -/
noncomputable def sqnorm (v : ℝ × ℝ) : ℝ := v.1 ^ 2 + v.2 ^ 2

/-- Euclidean norm, mirroring `np.linalg.norm` on a 2-vector. -/
noncomputable def vnorm (v : ℝ × ℝ) : ℝ := Real.sqrt (sqnorm v)

/-- State of one body, mirroring the mutable fields of `CelestialBody`
that the physics engine reads or writes.  Rendering-only fields (color)
are omitted. -/
structure CelestialBody where
  name : String
  mass : ℝ
  position : ℝ × ℝ
  velocity : ℝ × ℝ
  base_radius : ℝ
  force_vector : ℝ × ℝ
  trail : List (ℝ × ℝ)
  max_trail_length : ℕ

instance : Inhabited CelestialBody :=
  ⟨⟨"", 0, (0, 0), (0, 0), 0, (0, 0), [], 0⟩⟩

/-- Mirrors `CelestialBody.calculate_trail_length`: trail capacity grows
with the initial orbital distance, clamped into [100, 800]; `int` on a
non-negative float truncates, i.e. takes the floor. -/
noncomputable def calculate_trail_length (position : ℝ × ℝ) : ℕ :=
  let orbital_distance := vnorm position
  let orbit_length := 2 * Real.pi * (if 0 < orbital_distance then orbital_distance else AU)
  let base_orbit_length := 2 * Real.pi * AU
  let ratio := orbit_length / base_orbit_length
  (⌊(100 : ℝ) + 700 * min 1 (ratio / 10)⌋).toNat

/-- Mirrors `CelestialBody.__init__`: fresh bodies start with an empty
trail and a zero force vector. -/
noncomputable def initBody (name : String) (mass : ℝ) (position velocity : ℝ × ℝ)
    (base_radius : ℝ) : CelestialBody :=
  { name := name, mass := mass, position := position, velocity := velocity
  , base_radius := base_radius, force_vector := (0, 0), trail := []
  , max_trail_length := calculate_trail_length position }

/-- One pairwise contribution inside `CelestialBody.calculate_forces`:
the gravitational force exerted on `a` by `b`, with softening `eps`
(the live integration path uses `eps = 1e4`). -/
noncomputable def pairForce (eps : ℝ) (a b : CelestialBody) : ℝ × ℝ :=
  let r_vec := b.position - a.position
  let r_mag := vnorm r_vec
  if 0 < r_mag then
    let r_mag_soft := Real.sqrt (r_mag ^ 2 + eps ^ 2)
    let force_mag := G * a.mass * b.mass / r_mag_soft ^ 2
    vdiv (force_mag • r_vec) r_mag_soft
  else (0, 0)

/-- Mirrors `CelestialBody.calculate_forces`: fold over the body list,
skipping the entry whose index equals the index of `self` in that list
(Python's identity test `body != self`), accumulating pairwise forces. -/
noncomputable def calculate_forces (eps : ℝ) (self : CelestialBody)
    (bodies : List CelestialBody) (selfIdx : ℕ) : ℝ × ℝ :=
  bodies.enum.foldl
    (fun acc ib => if ib.1 = selfIdx then acc else acc + pairForce eps self ib.2) (0, 0)

/-- One half-kick on one body: store the freshly computed force and add
`(force / mass) * (dt / 2)` to the velocity, as in the two kick loops of
`SolarSystemSim.update_physics`. -/
noncomputable def kickBody (dt : ℝ) (f : ℝ × ℝ) (b : CelestialBody) : CelestialBody :=
  { b with force_vector := f, velocity := b.velocity + (dt / 2) • vdiv f b.mass }

/-- The sequential kick loop of `update_physics`: bodies are processed
in list order, each one recomputing its force from the current list
state (only velocities and stored forces have changed so far) and then
half-kicking its velocity. -/
noncomputable def kickAll (eps dt : ℝ) (bodies : List CelestialBody) : List CelestialBody :=
  (List.range bodies.length).foldl
    (fun bs k =>
      bs.set k (kickBody dt (calculate_forces eps (bs.getD k default) bs k) (bs.getD k default)))
    bodies

/-- One drift update on one body: `position += velocity * dt`. -/
noncomputable def driftBody (dt : ℝ) (b : CelestialBody) : CelestialBody :=
  { b with position := b.position + dt • b.velocity }

/-- The sequential drift loop of `update_physics`. -/
noncomputable def driftAll (dt : ℝ) (bodies : List CelestialBody) : List CelestialBody :=
  (List.range bodies.length).foldl (fun bs k => bs.set k (driftBody dt (bs.getD k default))) bodies

/-- One kick-drift-kick sub-step of `update_physics`, exactly as the
three sequential loops execute. -/
noncomputable def substepKDK (eps dt : ℝ) (bodies : List CelestialBody) : List CelestialBody :=
  kickAll eps dt (driftAll dt (kickAll eps dt bodies))

/-- Collision predicate from `SolarSystemSim.check_collisions`: centre
distance strictly below `(base_radius₁ + base_radius₂) * 1e9`. -/
noncomputable def collides (b1 b2 : CelestialBody) : Prop :=
  vnorm (b1.position - b2.position) < (b1.base_radius + b2.base_radius) * 1e9

noncomputable instance : ∀ b1 b2, Decidable (collides b1 b2) := fun _ _ => Real.decidableLT _ _

/-- Inner scan of `check_collisions`: walk the bodies after `body1` in
order and return the first collision partner together with the rest of
that suffix with the partner removed. -/
noncomputable def scanPair (b1 : CelestialBody) :
    List CelestialBody → Option (CelestialBody × List CelestialBody)
  | [] => none
  | b2 :: tl =>
    if collides b1 b2 then some (b2, tl)
    else
      match scanPair b1 tl with
      | some (c, tl2) => some (c, b2 :: tl2)
      | none => none

theorem scanPair_length {b1 : CelestialBody} :
    ∀ {l : List CelestialBody} {c : CelestialBody} {l2 : List CelestialBody},
      scanPair b1 l = some (c, l2) → l2.length + 1 = l.length := by
  intro l
  induction l with
  | nil => intro c l2 h; simp [scanPair] at h
  | cons b2 tl ih =>
    intro c l2 h
    by_cases hc : collides b1 b2
    · simp [scanPair, hc] at h
      simp [← h.2]
    · simp only [scanPair, if_neg hc] at h
      cases htl : scanPair b1 tl with
      | none => rw [htl] at h; simp at h
      | some p =>
        rw [htl] at h
        obtain ⟨c2, tl2⟩ := p
        simp at h
        have := ih htl
        simp [← h.2, ← this]

/-- The outer loop of `check_collisions`.  `done` holds the prefix of
indices already cleared (the loop never revisits them), `todo` the
suffix from the current outer index on, and `msgs` the collision
messages so far, most recent first (the source inserts at index 0).
Removing `body1` keeps the outer index in place, so scanning resumes on
`rest`; removing `body2` rescans `body1` against the remaining suffix,
exactly as the source restarts its inner loop. -/
noncomputable def checkCollisionsAux (done : List CelestialBody) (msgs : List (String × String)) :
    List CelestialBody → List CelestialBody × List (String × String)
  | [] => (done, msgs)
  | b1 :: rest =>
    match h : scanPair b1 rest with
    | none => checkCollisionsAux (done ++ [b1]) msgs rest
    | some (b2, rest2) =>
      if b1.mass < b2.mass then
        checkCollisionsAux done ((b1.name, b2.name) :: msgs) rest
      else
        checkCollisionsAux done ((b2.name, b1.name) :: msgs) (b1 :: rest2)
  termination_by l => l.length
  decreasing_by
  · simp
  · simp
  · simp [Nat.lt_succ_iff, ← scanPair_length h]

/-- Mirrors `SolarSystemSim.check_collisions`, returning the surviving
bodies in order and the emitted collision messages as
`(removed name, survivor name)` pairs, most recent first. -/
noncomputable def checkCollisions (bodies : List CelestialBody) :
    List CelestialBody × List (String × String) :=
  checkCollisionsAux [] [] bodies

/-- Mirrors `CelestialBody.update_trail`: append the current position,
then drop the oldest entry if the bound is exceeded. -/
noncomputable def updateTrail (b : CelestialBody) : CelestialBody :=
  let t := b.trail ++ [b.position]
  if b.max_trail_length < t.length then { b with trail := t.tail } else { b with trail := t }

/-- The trail push, abstracted over the bound and the stored list. -/
def pushTrail (m : ℕ) (t : List (ℝ × ℝ)) (p : ℝ × ℝ) : List (ℝ × ℝ) :=
  let t2 := t ++ [p]
  if m < t2.length then t2.tail else t2

/-- Sub-step count selection in `update_physics`: 100 when some body is
named "Moon", else 20. -/
def substepsFor (bodies : List CelestialBody) : ℕ :=
  if bodies.any (fun b => b.name == "Moon") then 100 else 20

/-- Mirrors `SolarSystemSim.update_physics`: when not paused and not in
the body-drag interaction mode, resolve collisions, pick the sub-step
count, run that many kick-drift-kick sub-steps with
`dt = TIME_STEP * time_scale / substeps`, then push one trail point per
body; otherwise leave the body list untouched.  The returned second
component is the list of collision messages emitted this frame. -/
noncomputable def updatePhysics (paused : Bool) (interaction_mode : String) (time_scale : ℝ)
    (bodies : List CelestialBody) : List CelestialBody × List (String × String) :=
  if paused = false ∧ interaction_mode ≠ "drag_body" then
    let res := checkCollisions bodies
    let substeps := substepsFor res.1
    let dt := TIME_STEP * time_scale / (substeps : ℝ)
    (((fun bs => substepKDK 1e4 dt bs)^[substeps] res.1).map updateTrail, res.2)
  else (bodies, [])

/-- One active physics frame (the body-list component). -/
noncomputable def physFrame (time_scale : ℝ) (bodies : List CelestialBody) :
    List CelestialBody :=
  (updatePhysics false "idle" time_scale bodies).1

/-- Mirrors `SolarSystemSim.calculate_center_of_mass`. -/
noncomputable def calculate_center_of_mass (bodies : List CelestialBody) : ℝ × ℝ :=
  if bodies.isEmpty then (0, 0)
  else
    let total_mass := (bodies.map (fun b => b.mass)).sum
    let c := (bodies.map (fun b => b.mass • b.position)).sum
    if 0 < total_mass then vdiv c total_mass else c

/-- Total momentum `Σ mᵢ • vᵢ` of a body list. -/
noncomputable def totalMomentum (bodies : List CelestialBody) : ℝ × ℝ :=
  (bodies.map (fun b => b.mass • b.velocity)).sum

/-- Mirrors `SolarSystemSim._correct_center_of_mass_drift_for_bodies`. -/
noncomputable def correctCOM (bodies : List CelestialBody) : List CelestialBody :=
  if bodies.isEmpty then bodies
  else
    let total_mass := (bodies.map (fun b => b.mass)).sum
    let center_of_mass := (bodies.map (fun b => b.mass • b.position)).sum
    let total_momentum := (bodies.map (fun b => b.mass • b.velocity)).sum
    if 0 < total_mass then
      bodies.map (fun b =>
        { b with position := b.position - vdiv center_of_mass total_mass
               , velocity := b.velocity - vdiv total_momentum total_mass })
    else bodies

/-- Mirrors the mass branch of the `UI_TEXT_ENTRY_FINISHED` handler in
`SolarSystemSim.handle_input`: `self.selected_body.mass = val`, with no
validation of the parsed value. -/
def setMass (val : ℝ) (b : CelestialBody) : CelestialBody := { b with mass := val }

/-- Mirrors `SolarSystemSim.add_random_body`, with the randomly sampled
quantities (distance, angle, mass, the two velocity jitter factors and
the integer radius) passed in as arguments. -/
noncomputable def addRandomBody (bodies : List CelestialBody)
    (dist angle massVal f1 f2 radius : ℝ) : List CelestialBody :=
  let v := Real.sqrt (G * 1.989e30 / dist)
  bodies ++ [initBody ("Planet " ++ toString bodies.length) massVal
    (Real.cos angle * dist, Real.sin angle * dist)
    (-(Real.sin angle) * v * f1, Real.cos angle * v * f2) radius]

end SolarSim

namespace SolarSim

/-- Claim C10: whenever the interaction mode is the body-drag state
(`'drag_body'`), one call to the physics update returns the body list
unchanged — every position, velocity, accumulated force and trail is
untouched and no collision removal or event occurs — even when the
simulation is not paused. -/
theorem claim_C10_drag_mode_freezes_physics (paused : Bool) (time_scale : ℝ)
    (bodies : List CelestialBody) :
    updatePhysics paused "drag_body" time_scale bodies = (bodies, []) := by
  simp [updatePhysics]

/-- A one-body list whose single body is named "Moon"; used to separate
the sub-step selection criterion from any property of body pairs. -/
noncomputable def loneMoon : CelestialBody := initBody "Moon" 1 (0, 0) (0, 0) 5

/-- Claim C7 counterexample: the sub-step count for a one-element body
list whose body is named "Moon" is 100, although a one-element list
contains no pair of bodies at all (tightly bound or otherwise), so the
claimed criterion "100 when the body set contains a tightly bound pair
and 20 otherwise" predicts 20 here. -/
theorem claim_C7_counterexample :
    substepsFor [loneMoon] = 100 ∧ List.length [loneMoon] = 1 := by
  constructor
  · simp [substepsFor, loneMoon, initBody]
  · rfl

/-- Claim C7 amended: the integration sub-step count is 100 exactly when
some body is named "Moon" and is 20 otherwise; it is recomputed from the
body list on every physics update call, not only when the composition
changes. -/
theorem claim_C7_amended (bodies : List CelestialBody) :
    (substepsFor bodies = 100 ↔ ∃ b ∈ bodies, b.name = "Moon") ∧
      (substepsFor bodies = 100 ∨ substepsFor bodies = 20) := by
  unfold substepsFor
  by_cases h : bodies.any (fun b => b.name == "Moon") = true
  · rw [if_pos h]
    simp only [List.any_eq_true, beq_iff_eq] at h
    exact ⟨⟨fun _ => h, fun _ => rfl⟩, Or.inl rfl⟩
  · rw [if_neg h]
    simp only [List.any_eq_true, beq_iff_eq, not_exists, not_and] at h
    refine ⟨⟨fun h20 => absurd h20 (by norm_num), fun hex => ?_⟩, Or.inr rfl⟩
    exfalso
    obtain ⟨b, hb, hn⟩ := hex
    exact h b hb hn

/-- A concrete body with mass 1, used as the target of a mass edit. -/
noncomputable def sampleBodyX : CelestialBody := initBody "X" 1 (0, 0) (0, 0) 5

/-- Claim C6 counterexample: the mass-entry mutation path accepts the
non-positive mass -1 — it stores it verbatim instead of failing, the
body set is changed, and a body with mass ≤ 0 is now stored. -/
theorem claim_C6_counterexample :
    (setMass (-1) sampleBodyX).mass = -1 ∧ (setMass (-1) sampleBodyX).mass ≤ 0 ∧
      (setMass (-1) sampleBodyX).mass ≠ sampleBodyX.mass := by
  have h1 : sampleBodyX.mass = 1 := rfl
  refine ⟨rfl, by norm_num [setMass], ?_⟩
  rw [h1]
  show (-1 : ℝ) ≠ 1
  norm_num

/-- Claim C6 amended: the mass mutation entry points perform no
validation.  Setting a body's mass stores the supplied value verbatim
(any value, including non-positive ones) and leaves the other physical
fields unchanged; the random-add entry point appends one body whose
stored mass is exactly the sampled value, which is positive whenever the
sample lies in the sampling interval `[1e23, 5e25]`. -/
theorem claim_C6_amended (v : ℝ) (b : CelestialBody) (bodies : List CelestialBody)
    (dist angle massVal f1 f2 radius : ℝ) (hm : 1e23 ≤ massVal) :
    (setMass v b).mass = v ∧ (setMass v b).position = b.position ∧
      (setMass v b).velocity = b.velocity ∧ (setMass v b).trail = b.trail ∧
      (addRandomBody bodies dist angle massVal f1 f2 radius).map (fun x => x.mass)
        = bodies.map (fun x => x.mass) ++ [massVal] ∧
      0 < ((addRandomBody bodies dist angle massVal f1 f2 radius).getLastD default).mass := by
  refine ⟨rfl, rfl, rfl, rfl, ?_, ?_⟩
  · simp [addRandomBody, initBody]
  · have h0 : (0 : ℝ) < 1e23 := by norm_num
    have hlast : ((addRandomBody bodies dist angle massVal f1 f2 radius).getLastD default).mass
        = massVal := by
      simp [addRandomBody, initBody]
    rw [hlast]
    linarith

/-- Claim C6 amended, witness: a concrete sampled mass inside the
sampling interval yields a stored positive mass. -/
theorem claim_C6_amended_witness :
    (1e23 : ℝ) ≤ 2e23 ∧ 0 < ((addRandomBody [] 1 0 2e23 1 1 4).getLastD default).mass :=
  ⟨by norm_num, (claim_C6_amended 0 default [] 1 0 2e23 1 1 4 (by norm_num)).2.2.2.2.2⟩

end SolarSim

namespace SolarSim

theorem vdiv_eq_smul (v : ℝ × ℝ) (c : ℝ) : vdiv v c = c⁻¹ • v := by
  cases v with
  | mk x y => simp [vdiv, Prod.smul_mk, smul_eq_mul, div_eq_inv_mul]

theorem vdiv_zero_vec (c : ℝ) : vdiv (0, 0) c = (0, 0) := by
  simp [vdiv]

theorem sum_mass_smul_sub (l : List CelestialBody) (f : CelestialBody → ℝ × ℝ) (c : ℝ × ℝ) :
    (l.map (fun b => b.mass • (f b - c))).sum
      = (l.map (fun b => b.mass • f b)).sum - ((l.map (fun b => b.mass)).sum) • c := by
  induction l with
  | nil => simp
  | cons b tl ih =>
    rw [List.map_cons, List.sum_cons, ih, List.map_cons, List.sum_cons, List.map_cons,
      List.sum_cons, smul_sub, add_smul]
    abel

theorem isEmpty_map_body (f : CelestialBody → CelestialBody) (l : List CelestialBody) :
    (l.map f).isEmpty = l.isEmpty := by
  cases l <;> rfl

/-- Claim C4: for every body set with positive total mass, the
centre-of-mass/momentum correction yields a body set whose recomputed
centre of mass is `(0, 0)` and whose recomputed total momentum
`Σ mᵢ • vᵢ` is `(0, 0)` — exactly, in the real-number model. -/
theorem claim_C4_com_correction (bodies : List CelestialBody)
    (hM : 0 < (bodies.map (fun b => b.mass)).sum) :
    calculate_center_of_mass (correctCOM bodies) = (0, 0) ∧
      totalMomentum (correctCOM bodies) = (0, 0) := by
  have hne : bodies.isEmpty = false := by
    cases bodies with
    | nil => simp at hM
    | cons b tl => rfl
  have hMne : (bodies.map (fun b => b.mass)).sum ≠ 0 := ne_of_gt hM
  set M := (bodies.map (fun b => b.mass)).sum with hMdef
  set C := (bodies.map (fun b => b.mass • b.position)).sum with hCdef
  set P := (bodies.map (fun b => b.mass • b.velocity)).sum with hPdef
  have hcorr : correctCOM bodies = bodies.map (fun b =>
      { b with position := b.position - vdiv C M, velocity := b.velocity - vdiv P M }) := by
    rw [correctCOM]
    simp only [hne, Bool.false_eq_true, if_false, ← hMdef, ← hCdef, ← hPdef, if_pos hM]
  have hmass : ((correctCOM bodies).map (fun b => b.mass)).sum = M := by
    rw [hcorr, List.map_map]
    rfl
  have hMsmul : ∀ w : ℝ × ℝ, M • vdiv w M = w := by
    intro w
    rw [vdiv_eq_smul, smul_smul, mul_inv_cancel₀ hMne, one_smul]
  have hpos : ((correctCOM bodies).map (fun b => b.mass • b.position)).sum = 0 := by
    rw [hcorr, List.map_map]
    have : (fun b => b.mass • b.position) ∘ (fun b : CelestialBody =>
        { b with position := b.position - vdiv C M, velocity := b.velocity - vdiv P M })
        = fun b : CelestialBody => b.mass • (b.position - vdiv C M) := rfl
    rw [this, sum_mass_smul_sub bodies (fun b => b.position) (vdiv C M), ← hCdef, ← hMdef,
      hMsmul C, sub_self]
  have hvel : ((correctCOM bodies).map (fun b => b.mass • b.velocity)).sum = 0 := by
    rw [hcorr, List.map_map]
    have : (fun b => b.mass • b.velocity) ∘ (fun b : CelestialBody =>
        { b with position := b.position - vdiv C M, velocity := b.velocity - vdiv P M })
        = fun b : CelestialBody => b.mass • (b.velocity - vdiv P M) := rfl
    rw [this, sum_mass_smul_sub bodies (fun b => b.velocity) (vdiv P M), ← hPdef, ← hMdef,
      hMsmul P, sub_self]
  have hne2 : (correctCOM bodies).isEmpty = false := by
    rw [hcorr, isEmpty_map_body]
    exact hne
  have hcom : calculate_center_of_mass (correctCOM bodies) =
      if 0 < ((correctCOM bodies).map (fun b => b.mass)).sum
      then vdiv (((correctCOM bodies).map (fun b => b.mass • b.position)).sum)
        (((correctCOM bodies).map (fun b => b.mass)).sum)
      else ((correctCOM bodies).map (fun b => b.mass • b.position)).sum := by
    rw [calculate_center_of_mass, if_neg (by rw [hne2]; exact Bool.false_ne_true)]
  constructor
  · rw [hcom, hmass, hpos, if_pos hM]
    simp [vdiv]
  · rw [totalMomentum, hvel]
    rfl

/-- A concrete two-body configuration used to witness the correction. -/
noncomputable def comBodyA : CelestialBody := initBody "A" 1 (2, 0) (1, 0) 3

/-- Second body of the concrete correction configuration. -/
noncomputable def comBodyB : CelestialBody := initBody "B" 3 (0, 4) (0, 2) 3

/-- Claim C4 witness: the correction zeroes the centre of mass and the
total momentum of a concrete two-body set of total mass 4. -/
theorem claim_C4_com_correction_witness :
    0 < (([comBodyA, comBodyB].map (fun b => b.mass)).sum) ∧
      calculate_center_of_mass (correctCOM [comBodyA, comBodyB]) = (0, 0) ∧
      totalMomentum (correctCOM [comBodyA, comBodyB]) = (0, 0) := by
  have h : 0 < (([comBodyA, comBodyB].map (fun b => b.mass)).sum) := by
    norm_num [comBodyA, comBodyB, initBody]
  exact ⟨h, (claim_C4_com_correction [comBodyA, comBodyB] h).1,
    (claim_C4_com_correction [comBodyA, comBodyB] h).2⟩

end SolarSim

namespace SolarSim

theorem checkCollisionsAux_nil (done : List CelestialBody) (msgs : List (String × String)) :
    checkCollisionsAux done msgs [] = (done, msgs) := by
  rw [checkCollisionsAux]

theorem checkCollisionsAux_cons_none (done : List CelestialBody) (msgs : List (String × String))
    (b1 : CelestialBody) (rest : List CelestialBody) (h : scanPair b1 rest = none) :
    checkCollisionsAux done msgs (b1 :: rest) = checkCollisionsAux (done ++ [b1]) msgs rest := by
  rw [checkCollisionsAux, h]

theorem checkCollisionsAux_cons_lt (done : List CelestialBody) (msgs : List (String × String))
    (b1 b2 : CelestialBody) (rest rest2 : List CelestialBody)
    (h : scanPair b1 rest = some (b2, rest2)) (hm : b1.mass < b2.mass) :
    checkCollisionsAux done msgs (b1 :: rest)
      = checkCollisionsAux done ((b1.name, b2.name) :: msgs) rest := by
  rw [checkCollisionsAux, h]
  exact if_pos hm

theorem checkCollisionsAux_cons_ge (done : List CelestialBody) (msgs : List (String × String))
    (b1 b2 : CelestialBody) (rest rest2 : List CelestialBody)
    (h : scanPair b1 rest = some (b2, rest2)) (hm : ¬b1.mass < b2.mass) :
    checkCollisionsAux done msgs (b1 :: rest)
      = checkCollisionsAux done ((b2.name, b1.name) :: msgs) (b1 :: rest2) := by
  rw [checkCollisionsAux, h]
  exact if_neg hm

end SolarSim

namespace SolarSim

theorem vnorm_sub_comm (u v : ℝ × ℝ) : vnorm (u - v) = vnorm (v - u) := by
  unfold vnorm sqnorm
  congr 1
  have h1 : (u - v).1 = u.1 - v.1 := rfl
  have h2 : (u - v).2 = u.2 - v.2 := rfl
  have h3 : (v - u).1 = v.1 - u.1 := rfl
  have h4 : (v - u).2 = v.2 - u.2 := rfl
  rw [h1, h2, h3, h4]
  ring

theorem scanPair_nil (b1 : CelestialBody) : scanPair b1 [] = none := rfl

theorem scanPair_cons_pos (b1 b2 : CelestialBody) (tl : List CelestialBody)
    (hc : collides b1 b2) : scanPair b1 (b2 :: tl) = some (b2, tl) := by
  simp [scanPair, if_pos hc]

/-- Claim C9: when two colliding bodies have exactly equal masses, the
resolution removes the body at the later list position (the source's
`else` branch picks `body2` as the smaller body) and the earlier body
survives unchanged, with one event naming the removed later body and the
surviving earlier body. -/
theorem claim_C9_equal_mass_removes_later (b1 b2 : CelestialBody) (hc : collides b1 b2)
    (hm : b1.mass = b2.mass) :
    checkCollisions [b1, b2] = ([b1], [(b2.name, b1.name)]) := by
  have hs : scanPair b1 [b2] = some (b2, []) := scanPair_cons_pos b1 b2 [] hc
  rw [checkCollisions,
    checkCollisionsAux_cons_ge [] [] b1 b2 [b2] [] hs (by rw [hm]; exact lt_irrefl _),
    checkCollisionsAux_cons_none [] [(b2.name, b1.name)] b1 [] (scanPair_nil b1),
    checkCollisionsAux_nil]
  simp

/-- First body of the equal-mass collision witness configuration. -/
noncomputable def tieBodyP : CelestialBody := initBody "P" 7 (0, 0) (0, 0) 2

/-- Second body of the equal-mass collision witness configuration. -/
noncomputable def tieBodyQ : CelestialBody := initBody "Q" 7 (0, 0) (1, 0) 3

/-- Claim C9 witness: two equal-mass bodies at the same position — the
later one is removed and the earlier one survives. -/
theorem claim_C9_equal_mass_removes_later_witness :
    collides tieBodyP tieBodyQ ∧ tieBodyP.mass = tieBodyQ.mass ∧
      checkCollisions [tieBodyP, tieBodyQ] = ([tieBodyP], [(tieBodyQ.name, tieBodyP.name)]) := by
  have hsub : tieBodyP.position - tieBodyQ.position = (0, 0) := by
    show ((0 : ℝ), (0 : ℝ)) - (0, 0) = (0, 0)
    simp
  have hc : collides tieBodyP tieBodyQ := by
    rw [collides, hsub]
    show Real.sqrt (sqnorm (0, 0)) < ((2 : ℝ) + 3) * 1e9
    norm_num [sqnorm, Real.sqrt_zero]
  exact ⟨hc, rfl, claim_C9_equal_mass_removes_later tieBodyP tieBodyQ hc rfl⟩

/-- Claim C3: collision resolution.  A pair collides exactly when the
Euclidean centre distance is strictly below
`(base_radius₁ + base_radius₂) * 1e9`; for a colliding pair with
strictly smaller first mass the smaller body is removed and the larger
survives unchanged, in either list order, with exactly one event naming
the removed body and then the survivor; the events of a physics frame
are exactly those of the collision pass, which runs before integration;
and a non-colliding pair is left untouched with no event. -/
theorem claim_C3_collision_resolution (b1 b2 : CelestialBody) (ts : ℝ)
    (hc : vnorm (b1.position - b2.position) < (b1.base_radius + b2.base_radius) * 1e9)
    (hm : b1.mass < b2.mass) :
    checkCollisions [b1, b2] = ([b2], [(b1.name, b2.name)]) ∧
      checkCollisions [b2, b1] = ([b2], [(b1.name, b2.name)]) ∧
      (updatePhysics false "idle" ts [b1, b2]).2 = [(b1.name, b2.name)] ∧
      (∀ c1 c2 : CelestialBody, ¬collides c1 c2 → checkCollisions [c1, c2] = ([c1, c2], [])) := by
  have hc2 : collides b2 b1 := by
    rw [collides, vnorm_sub_comm, add_comm b2.base_radius]
    exact hc
  have h1 : checkCollisions [b1, b2] = ([b2], [(b1.name, b2.name)]) := by
    rw [checkCollisions,
      checkCollisionsAux_cons_lt [] [] b1 b2 [b2] [] (scanPair_cons_pos b1 b2 [] hc) hm,
      checkCollisionsAux_cons_none [] [(b1.name, b2.name)] b2 [] (scanPair_nil b2),
      checkCollisionsAux_nil]
    simp
  have h2 : checkCollisions [b2, b1] = ([b2], [(b1.name, b2.name)]) := by
    rw [checkCollisions,
      checkCollisionsAux_cons_ge [] [] b2 b1 [b1] [] (scanPair_cons_pos b2 b1 [] hc2)
        (fun hlt => absurd hm (not_lt_of_gt hlt)),
      checkCollisionsAux_cons_none [] [(b1.name, b2.name)] b2 [] (scanPair_nil b2),
      checkCollisionsAux_nil]
    simp
  refine ⟨h1, h2, ?_, ?_⟩
  · rw [updatePhysics, if_pos ⟨rfl, by decide⟩]
    show (checkCollisions [b1, b2]).2 = [(b1.name, b2.name)]
    rw [h1]
  · intro c1 c2 hnc
    have hs : scanPair c1 [c2] = none := by
      simp [scanPair, if_neg hnc]
    rw [checkCollisions, checkCollisionsAux_cons_none [] [] c1 [c2] hs]
    simp only [List.nil_append]
    rw [checkCollisionsAux_cons_none [c1] [] c2 [] (scanPair_nil c2), checkCollisionsAux_nil]
    rfl

/-- First (lighter) body of the collision witness configuration. -/
noncomputable def colBodyA : CelestialBody := initBody "A" 1 (0, 0) (0, 0) 2

/-- Second (heavier) body of the collision witness configuration. -/
noncomputable def colBodyB : CelestialBody := initBody "B" 2 (0, 0) (0, 0) 3

/-- Claim C3 witness: a concrete overlapping pair with masses 1 and 2 —
the mass-1 body is removed, the mass-2 body survives, one event is
emitted. -/
theorem claim_C3_collision_resolution_witness :
    vnorm (colBodyA.position - colBodyB.position)
        < (colBodyA.base_radius + colBodyB.base_radius) * 1e9 ∧
      colBodyA.mass < colBodyB.mass ∧
      checkCollisions [colBodyA, colBodyB] = ([colBodyB], [(colBodyA.name, colBodyB.name)]) := by
  have hsub : colBodyA.position - colBodyB.position = (0, 0) := by
    show ((0 : ℝ), (0 : ℝ)) - (0, 0) = (0, 0)
    simp
  have hc : vnorm (colBodyA.position - colBodyB.position)
      < (colBodyA.base_radius + colBodyB.base_radius) * 1e9 := by
    rw [hsub]
    show Real.sqrt (sqnorm (0, 0)) < ((2 : ℝ) + 3) * 1e9
    norm_num [sqnorm, Real.sqrt_zero]
  have hm : colBodyA.mass < colBodyB.mass := by
    show (1 : ℝ) < 2
    norm_num
  exact ⟨hc, hm, (claim_C3_collision_resolution colBodyA colBodyB 1 hc hm).1⟩

end SolarSim

namespace SolarSim

/-- Apply `g` to every (index, body) pair of a snapshot list: the phased
form in which all per-body updates read the same snapshot. -/
noncomputable def snapMap (g : ℕ → CelestialBody → CelestialBody)
    (bs : List CelestialBody) : List CelestialBody :=
  bs.enum.map (fun ib => g ib.1 ib.2)

theorem snapMap_length (g : ℕ → CelestialBody → CelestialBody) (bs : List CelestialBody) :
    (snapMap g bs).length = bs.length := by
  rw [snapMap, List.length_map, List.enum_length]

theorem enum_getElem? (l : List CelestialBody) (i : ℕ) (h : i < l.length) :
    l.enum[i]? = some (i, l[i]) := by
  rw [List.getElem?_enum, List.getElem?_eq_getElem h]
  rfl

theorem snapMap_getElem? (g : ℕ → CelestialBody → CelestialBody) (bs : List CelestialBody)
    (i : ℕ) (h : i < bs.length) : (snapMap g bs)[i]? = some (g i bs[i]) := by
  rw [snapMap, List.getElem?_map, enum_getElem? bs i h]
  rfl

theorem getD_of_getElem? (l : List CelestialBody) (n : ℕ) (x : CelestialBody)
    (he : l[n]? = some x) : l.getD n default = x := by
  rw [List.getD_eq_getElem?_getD, he]
  rfl

theorem shape_length (g : ℕ → CelestialBody → CelestialBody) (bs : List CelestialBody)
    (j : ℕ) (hj : j ≤ bs.length) :
    ((snapMap g bs).take j ++ bs.drop j).length = bs.length := by
  rw [List.length_append, List.length_take, snapMap_length, List.length_drop, min_eq_left hj]
  omega

theorem shape_getD (g : ℕ → CelestialBody → CelestialBody) (bs : List CelestialBody)
    (j i : ℕ) (hj : j ≤ bs.length) (hi : i < bs.length) :
    ((snapMap g bs).take j ++ bs.drop j).getD i default
      = if i < j then g i (bs.getD i default) else bs.getD i default := by
  have hp : ((snapMap g bs).take j).length = j := by
    rw [List.length_take, snapMap_length]
    exact min_eq_left hj
  by_cases hij : i < j
  · rw [if_pos hij]
    have h1 : ((snapMap g bs).take j ++ bs.drop j)[i]? = some (g i bs[i]) := by
      rw [List.getElem?_append_left (by rw [hp]; exact hij),
        List.getElem?_take_of_lt hij, snapMap_getElem? g bs i hi]
    rw [getD_of_getElem? _ _ _ h1, List.getD_eq_getElem bs default hi]
  · rw [if_neg hij]
    have hji : j ≤ i := Nat.le_of_not_lt hij
    have h1 : ((snapMap g bs).take j ++ bs.drop j)[i]? = bs[i]? := by
      rw [List.getElem?_append_right (by rw [hp]; exact hji), hp, List.getElem?_drop]
      congr 1
      omega
    rw [getD_of_getElem? _ _ _ (by rw [h1]; exact List.getElem?_eq_getElem hi),
      List.getD_eq_getElem bs default hi]

theorem seqUpdate_eq_map (step : List CelestialBody → ℕ → CelestialBody)
    (g : ℕ → CelestialBody → CelestialBody) (bs : List CelestialBody)
    (hstep : ∀ (l : List CelestialBody) (j : ℕ), j < bs.length →
        l = (snapMap g bs).take j ++ bs.drop j → step l j = g j (bs.getD j default)) :
    (List.range bs.length).foldl (fun l k => l.set k (step l k)) bs = snapMap g bs := by
  have key : ∀ j, j ≤ bs.length →
      (List.range j).foldl (fun l k => l.set k (step l k)) bs
        = (snapMap g bs).take j ++ bs.drop j := by
    intro j
    induction j with
    | zero => intro hj; simp
    | succ i ih =>
      intro hj
      have hin : i < bs.length := Nat.lt_of_succ_le hj
      rw [List.range_succ, List.foldl_append, ih (le_of_lt hin)]
      simp only [List.foldl_cons, List.foldl_nil]
      rw [hstep _ i hin rfl]
      have hp : ((snapMap g bs).take i).length = i := by
        rw [List.length_take, snapMap_length]
        exact min_eq_left (le_of_lt hin)
      rw [List.set_append_right i (g i (bs.getD i default)) hp.le, hp, Nat.sub_self,
        List.drop_eq_getElem_cons hin, List.set_cons_zero, List.take_succ,
        snapMap_getElem? g bs i hin]
      rw [List.getD_eq_getElem bs default hin]
      simp
  have hfin := key bs.length le_rfl
  rw [hfin, List.take_of_length_le (snapMap_length g bs).le, List.drop_length, List.append_nil]

end SolarSim

namespace SolarSim

theorem getElem_eq_of_getElem? {α : Type} (l : List α) (n : ℕ) (h : n < l.length) (x : α)
    (he : l[n]? = some x) : l[n] = x := by
  rw [List.getElem?_eq_getElem h] at he
  exact Option.some.inj he

theorem foldl_add_eq_sum (Gf : ℕ × CelestialBody → ℝ × ℝ) (l : List (ℕ × CelestialBody))
    (init : ℝ × ℝ) :
    l.foldl (fun acc x => acc + Gf x) init = init + (l.map Gf).sum := by
  induction l generalizing init with
  | nil => simp
  | cons x tl ih => simp [ih, add_assoc]

/-- Closed form of `calculate_forces`: the sum over the indexed body
list of the pairwise forces, with the self index contributing zero. -/
theorem calculate_forces_eq_sum (eps : ℝ) (self : CelestialBody) (bs : List CelestialBody)
    (k : ℕ) :
    calculate_forces eps self bs k
      = (bs.enum.map (fun ib => if ib.1 = k then 0 else pairForce eps self ib.2)).sum := by
  rw [calculate_forces]
  have hfun : (fun (acc : ℝ × ℝ) (ib : ℕ × CelestialBody) =>
      if ib.1 = k then acc else acc + pairForce eps self ib.2)
      = fun acc ib => acc + (if ib.1 = k then 0 else pairForce eps self ib.2) := by
    funext acc ib
    by_cases hik : ib.1 = k
    · simp [hik]
    · simp [hik]
  rw [hfun, foldl_add_eq_sum]
  simp

theorem pairForce_congr (eps : ℝ) (a b1 b2 : CelestialBody) (hp : b1.position = b2.position)
    (hm : b1.mass = b2.mass) : pairForce eps a b1 = pairForce eps a b2 := by
  rw [pairForce, pairForce, hp, hm]

/-- The force accumulation reads only the positions and masses of the list
entries: two lists agreeing pointwise on those fields give the same
force. -/
theorem calculate_forces_congr (eps : ℝ) (self : CelestialBody) (l1 l2 : List CelestialBody)
    (k : ℕ) (hlen : l1.length = l2.length)
    (hpm : ∀ i, i < l1.length →
      (l1.getD i default).position = (l2.getD i default).position ∧
      (l1.getD i default).mass = (l2.getD i default).mass) :
    calculate_forces eps self l1 k = calculate_forces eps self l2 k := by
  rw [calculate_forces_eq_sum, calculate_forces_eq_sum]
  congr 1
  apply List.ext_getElem
  · rw [List.length_map, List.length_map, List.enum_length, List.enum_length, hlen]
  · intro n h1 h2
    have hn1 : n < l1.length := by
      rw [List.length_map, List.enum_length] at h1
      exact h1
    have hn2 : n < l2.length := by
      rw [← hlen]
      exact hn1
    have e1 : (l1.enum.map (fun ib => if ib.1 = k then 0 else pairForce eps self ib.2))[n]?
        = some (if n = k then 0 else pairForce eps self l1[n]) := by
      rw [List.getElem?_map, enum_getElem? l1 n hn1]
      rfl
    have e2 : (l2.enum.map (fun ib => if ib.1 = k then 0 else pairForce eps self ib.2))[n]?
        = some (if n = k then 0 else pairForce eps self l2[n]) := by
      rw [List.getElem?_map, enum_getElem? l2 n hn2]
      rfl
    rw [getElem_eq_of_getElem? _ n h1 _ e1, getElem_eq_of_getElem? _ n h2 _ e2]
    by_cases hnk : n = k
    · rw [if_pos hnk, if_pos hnk]
    · rw [if_neg hnk, if_neg hnk]
      have hpmn := hpm n hn1
      rw [List.getD_eq_getElem l1 default hn1, List.getD_eq_getElem l2 default hn2] at hpmn
      exact pairForce_congr eps self _ _ hpmn.1 hpmn.2

/-- The sequential kick loop equals its phased description: every
body's force is computed from the single pre-kick snapshot (the kick
loop changes only velocities and stored forces, which the force
computation does not read), then every body is half-kicked. -/
theorem kickAll_eq_snapMap (eps dt : ℝ) (bs : List CelestialBody) :
    kickAll eps dt bs
      = snapMap (fun k b => kickBody dt (calculate_forces eps b bs k) b) bs := by
  rw [kickAll]
  apply seqUpdate_eq_map
  intro l j hj hl
  have hgd : l.getD j default = bs.getD j default := by
    rw [hl, shape_getD _ bs j j (le_of_lt hj) hj, if_neg (lt_irrefl j)]
  rw [hgd]
  have hcf : calculate_forces eps (bs.getD j default) l j
      = calculate_forces eps (bs.getD j default) bs j := by
    apply calculate_forces_congr
    · rw [hl, shape_length _ bs j (le_of_lt hj)]
    · intro i hi
      have hib : i < bs.length := by
        rw [hl, shape_length _ bs j (le_of_lt hj)] at hi
        exact hi
      rw [hl, shape_getD _ bs j i (le_of_lt hj) hib]
      by_cases hij : i < j
      · rw [if_pos hij]
        exact ⟨rfl, rfl⟩
      · rw [if_neg hij]
        exact ⟨rfl, rfl⟩
  rw [hcf]

/-- The sequential drift loop equals the elementwise map: each body's
drift reads only that body's own state. -/
theorem driftAll_eq_map (dt : ℝ) (bs : List CelestialBody) :
    driftAll dt bs = snapMap (fun _ b => driftBody dt b) bs := by
  rw [driftAll]
  apply seqUpdate_eq_map
  intro l j hj hl
  rw [hl, shape_getD _ bs j j (le_of_lt hj) hj, if_neg (lt_irrefl j)]

theorem snapMap_const (f : CelestialBody → CelestialBody) (bs : List CelestialBody) :
    snapMap (fun _ b => f b) bs = bs.map f := by
  apply List.ext_getElem
  · rw [snapMap_length, List.length_map]
  · intro n h1 h2
    have hn : n < bs.length := by
      rw [snapMap_length] at h1
      exact h1
    rw [getElem_eq_of_getElem? _ n h1 _ (snapMap_getElem? _ bs n hn), List.getElem_map]

end SolarSim

namespace SolarSim

/-- The kick phase as the specification words it: compute every body's
force from one consistent snapshot of positions, then half-kick every
body. -/
noncomputable def specPhasedKick (eps dt : ℝ) (bs : List CelestialBody) : List CelestialBody :=
  bs.enum.map (fun ib => kickBody dt (calculate_forces eps ib.2 bs ib.1) ib.2)

/-- One kick-drift-kick sub-step as the specification words it: a
snapshot kick phase, a drift phase applied to every body, a second
snapshot kick phase on the new positions. -/
noncomputable def specPhasedSubstep (eps dt : ℝ) (bs : List CelestialBody) : List CelestialBody :=
  specPhasedKick eps dt ((specPhasedKick eps dt bs).map (driftBody dt))

theorem substepKDK_eq_phased (eps dt : ℝ) (bs : List CelestialBody) :
    substepKDK eps dt bs = specPhasedSubstep eps dt bs := by
  rw [substepKDK, kickAll_eq_snapMap eps dt bs, driftAll_eq_map, snapMap_const,
    kickAll_eq_snapMap]
  rfl

/-- Claim C2: an active physics frame resolves collisions, then runs
`substeps` iterations of the kick-drift-kick scheme with
`dt = TIME_STEP * time_scale / substeps`, where each sub-step is
exactly its phased description — all forces computed from one
consistent snapshot of positions before any position advances, a
half-kick for every body, a drift for every body, a force recomputation
from the new positions and a second half-kick — and finally appends one
trail point per body. -/
theorem claim_C2_kick_drift_kick (ts : ℝ) (bodies : List CelestialBody) :
    updatePhysics false "idle" ts bodies
      = (((fun bs => specPhasedSubstep 1e4
              (TIME_STEP * ts / (substepsFor (checkCollisions bodies).1 : ℝ)) bs)^[
            substepsFor (checkCollisions bodies).1] (checkCollisions bodies).1).map updateTrail,
         (checkCollisions bodies).2) := by
  rw [updatePhysics, if_pos ⟨rfl, by decide⟩]
  show (((fun bs => substepKDK 1e4
      (TIME_STEP * ts / (substepsFor (checkCollisions bodies).1 : ℝ)) bs)^[
        substepsFor (checkCollisions bodies).1] (checkCollisions bodies).1).map updateTrail,
      (checkCollisions bodies).2) = _
  have hfun : (fun bs => substepKDK 1e4
      (TIME_STEP * ts / (substepsFor (checkCollisions bodies).1 : ℝ)) bs)
      = fun bs => specPhasedSubstep 1e4
          (TIME_STEP * ts / (substepsFor (checkCollisions bodies).1 : ℝ)) bs := by
    funext bs
    exact substepKDK_eq_phased _ _ bs
  rw [hfun]

end SolarSim

namespace SolarSim

theorem snapMap_getD_trail (g : ℕ → CelestialBody → CelestialBody) (bs : List CelestialBody)
    (hg : ∀ k b, (g k b).trail = b.trail) (i : ℕ) :
    ((snapMap g bs).getD i default).trail = (bs.getD i default).trail := by
  by_cases hi : i < bs.length
  · rw [getD_of_getElem? _ _ _ (snapMap_getElem? g bs i hi), hg,
      List.getD_eq_getElem bs default hi]
  · have h1 : bs.length ≤ i := Nat.le_of_not_lt hi
    rw [List.getD_eq_getElem?_getD, List.getD_eq_getElem?_getD,
      List.getElem?_eq_none (by rw [snapMap_length]; exact h1), List.getElem?_eq_none h1]

theorem kickAll_getD_trail (eps dt : ℝ) (bs : List CelestialBody) (i : ℕ) :
    ((kickAll eps dt bs).getD i default).trail = (bs.getD i default).trail := by
  rw [kickAll_eq_snapMap]
  exact snapMap_getD_trail (fun k b => kickBody dt (calculate_forces eps b bs k) b) bs
    (fun k b => rfl) i

theorem driftAll_getD_trail (dt : ℝ) (bs : List CelestialBody) (i : ℕ) :
    ((driftAll dt bs).getD i default).trail = (bs.getD i default).trail := by
  rw [driftAll_eq_map]
  exact snapMap_getD_trail (fun _ b => driftBody dt b) bs (fun k b => rfl) i

/-- The three sub-step loops never touch any trail. -/
theorem substepKDK_trail (eps dt : ℝ) (bs : List CelestialBody) (i : ℕ) :
    ((substepKDK eps dt bs).getD i default).trail = (bs.getD i default).trail := by
  rw [substepKDK, kickAll_getD_trail, driftAll_getD_trail, kickAll_getD_trail]

theorem updateTrail_trail (b : CelestialBody) :
    (updateTrail b).trail = pushTrail b.max_trail_length b.trail b.position := by
  rw [updateTrail, pushTrail, apply_ite (fun x : CelestialBody => x.trail)]

theorem pushTrail_length_le (m : ℕ) (t : List (ℝ × ℝ)) (p : ℝ × ℝ) (h : t.length ≤ m) :
    (pushTrail m t p).length ≤ m := by
  rw [pushTrail]
  by_cases hc : m < (t ++ [p]).length
  · rw [if_pos hc, List.length_tail]
    simp only [List.length_append, List.length_cons, List.length_nil] at hc ⊢
    omega
  · rw [if_neg hc]
    simp only [List.length_append, List.length_cons, List.length_nil] at hc ⊢
    omega

/-- Iterating the trail push from an empty trail keeps exactly the last
`m` positions, oldest evicted first. -/
theorem foldl_pushTrail_eq_drop (m : ℕ) (ps : List (ℝ × ℝ)) :
    ps.foldl (pushTrail m) [] = ps.drop (ps.length - m) := by
  induction ps using List.reverseRecOn with
  | nil => simp
  | append_singleton qs p ih =>
    rw [List.foldl_append, ih]
    simp only [List.foldl_cons, List.foldl_nil]
    rw [pushTrail]
    have hql : (qs.drop (qs.length - m)).length = min qs.length m := by
      rw [List.length_drop]
      omega
    by_cases hc : m < (qs.drop (qs.length - m) ++ [p]).length
    · rw [if_pos hc]
      have hm : m ≤ qs.length := by
        rw [List.length_append, hql, List.length_cons, List.length_nil] at hc
        omega
      rw [← List.drop_append_of_le_length (by omega), List.tail_drop]
      congr 1
      rw [List.length_append, List.length_cons, List.length_nil]
      omega
    · rw [if_neg hc]
      have hm : qs.length < m := by
        rw [List.length_append, hql, List.length_cons, List.length_nil] at hc
        omega
      rw [← List.drop_append_of_le_length (by omega)]
      congr 1
      rw [List.length_append, List.length_cons, List.length_nil]
      omega

/-- Claim C5: trails evolve at physics-frame granularity.  Sub-steps
never touch any trail; an active frame applies the trail update exactly
once per surviving body, after all sub-steps; the trail update appends
the current position and evicts the oldest entry when the bound is
exceeded; the trail length never exceeds the bound; and after any
sequence of frames the retained trail is exactly the suffix of the
last `max_trail_length` recorded positions, whose oldest entry is the
`(frame_count − max_trail_length)`-th recorded position. -/
theorem claim_C5_trail_per_frame (eps dt : ℝ) (bs : List CelestialBody) (i : ℕ)
    (b : CelestialBody) (ts : ℝ) (m : ℕ) (t : List (ℝ × ℝ)) (p : ℝ × ℝ)
    (ht : t.length ≤ m) (ps : List (ℝ × ℝ)) :
    ((substepKDK eps dt bs).getD i default).trail = (bs.getD i default).trail ∧
      (updateTrail b).trail = pushTrail b.max_trail_length b.trail b.position ∧
      physFrame ts bs
        = ((fun l => substepKDK 1e4
            (TIME_STEP * ts / (substepsFor (checkCollisions bs).1 : ℝ)) l)^[
              substepsFor (checkCollisions bs).1] (checkCollisions bs).1).map updateTrail ∧
      (pushTrail m t p).length ≤ m ∧
      ps.foldl (pushTrail m) [] = ps.drop (ps.length - m) ∧
      (ps.foldl (pushTrail m) []).getD 0 (0, 0) = ps.getD (ps.length - m) (0, 0) := by
  refine ⟨substepKDK_trail eps dt bs i, updateTrail_trail b, ?_,
    pushTrail_length_le m t p ht, foldl_pushTrail_eq_drop m ps, ?_⟩
  · rw [physFrame, updatePhysics, if_pos ⟨rfl, by decide⟩]
  · rw [foldl_pushTrail_eq_drop m ps, List.getD_eq_getElem?_getD, List.getD_eq_getElem?_getD,
      List.getElem?_drop, Nat.add_zero]

/-- Claim C5 witness: a concrete one-entry trail with bound 2 stays
within the bound after a push. -/
theorem claim_C5_trail_per_frame_witness :
    ([((0 : ℝ), (0 : ℝ))].length ≤ 2) ∧ (pushTrail 2 [(0, 0)] (1, 1)).length ≤ 2 :=
  ⟨by simp,
    (claim_C5_trail_per_frame 1 1 [] 0 default 1 2 [(0, 0)] (1, 1) (by simp) []).2.2.2.1⟩

end SolarSim

namespace SolarSim

theorem sqnorm_nonneg (v : ℝ × ℝ) : 0 ≤ sqnorm v :=
  add_nonneg (sq_nonneg _) (sq_nonneg _)

theorem sqnorm_pos_of_ne_zero (v : ℝ × ℝ) (hv : v ≠ 0) : 0 < sqnorm v := by
  rcases lt_or_eq_of_le (sqnorm_nonneg v) with h | h
  · exact h
  · exfalso
    apply hv
    have h2 := (add_eq_zero_iff_of_nonneg (sq_nonneg v.1) (sq_nonneg v.2)).mp h.symm
    have hx : v.1 = 0 := by
      have := h2.1
      exact pow_eq_zero_iff (two_ne_zero) |>.mp this
    have hy : v.2 = 0 := by
      have := h2.2
      exact pow_eq_zero_iff (two_ne_zero) |>.mp this
    exact Prod.ext hx hy

theorem sum_map_ite_eq_filter (k : ℕ) (F : ℕ × CelestialBody → ℝ × ℝ)
    (l : List (ℕ × CelestialBody)) :
    (l.map (fun ib => if ib.1 = k then 0 else F ib)).sum
      = ((l.filter (fun ib => ib.1 != k)).map F).sum := by
  induction l with
  | nil => simp
  | cons x tl ih =>
    by_cases hx : x.1 = k
    · simp [hx, ih]
    · simp [hx, ih]

/-- Claim C1: the pairwise gravitational force on `a` from `b` is the
zero vector when the positions coincide, and otherwise equals
`G·m_a·m_b / r_soft²` scaled by `r_vec / r_soft` with
`r_soft = sqrt(|r_vec|² + ε²)` for the fixed softening `ε = 1e4`; the
softened denominator is strictly positive (no division by zero even at
coincident positions); and the net force on a body is the sum of the
pairwise contributions over all entries other than the body's own
index. -/
theorem claim_C1_softened_force (a b : CelestialBody) (bodies : List CelestialBody) (k : ℕ) :
    (b.position = a.position → pairForce 1e4 a b = (0, 0)) ∧
      (b.position ≠ a.position →
        pairForce 1e4 a b
          = vdiv ((G * a.mass * b.mass
                / Real.sqrt (sqnorm (b.position - a.position) + (1e4 : ℝ) ^ 2) ^ 2)
              • (b.position - a.position))
            (Real.sqrt (sqnorm (b.position - a.position) + (1e4 : ℝ) ^ 2))) ∧
      0 < Real.sqrt (sqnorm (b.position - a.position) + (1e4 : ℝ) ^ 2) ∧
      calculate_forces 1e4 a bodies k
        = ((bodies.enum.filter (fun ib => ib.1 != k)).map
            (fun ib => pairForce 1e4 a ib.2)).sum := by
  refine ⟨?_, ?_, ?_, ?_⟩
  · intro hp
    rw [pairForce]
    have h0 : b.position - a.position = 0 := sub_eq_zero_of_eq hp
    rw [h0]
    have hvz : vnorm 0 = 0 := by
      have : sqnorm 0 = 0 := by
        rw [sqnorm]
        norm_num
      rw [vnorm, this, Real.sqrt_zero]
    rw [hvz, if_neg (lt_irrefl 0)]
  · intro hp
    rw [pairForce]
    have hne : b.position - a.position ≠ 0 := sub_ne_zero.mpr hp
    have hsq : 0 < sqnorm (b.position - a.position) := sqnorm_pos_of_ne_zero _ hne
    have hvpos : 0 < vnorm (b.position - a.position) := Real.sqrt_pos.mpr hsq
    rw [if_pos hvpos, vnorm, Real.sq_sqrt (sqnorm_nonneg _)]
  · apply Real.sqrt_pos.mpr
    have h4 : (0 : ℝ) < (1e4 : ℝ) ^ 2 := by norm_num
    exact add_pos_of_nonneg_of_pos (sqnorm_nonneg _) h4
  · rw [calculate_forces_eq_sum, sum_map_ite_eq_filter]

/-- Body at the origin used in the force-formula witness. -/
noncomputable def forceBodyA : CelestialBody := initBody "FA" 2 (0, 0) (0, 0) 4

/-- Body at distance 5 used in the force-formula witness. -/
noncomputable def forceBodyB : CelestialBody := initBody "FB" 3 (3, 4) (0, 0) 4

/-- Claim C1 witness: for two bodies at distinct concrete positions the
pairwise force takes the softened closed form. -/
theorem claim_C1_softened_force_witness :
    forceBodyB.position ≠ forceBodyA.position ∧
      pairForce 1e4 forceBodyA forceBodyB
        = vdiv ((G * forceBodyA.mass * forceBodyB.mass
              / Real.sqrt (sqnorm (forceBodyB.position - forceBodyA.position) + (1e4 : ℝ) ^ 2) ^ 2)
            • (forceBodyB.position - forceBodyA.position))
          (Real.sqrt (sqnorm (forceBodyB.position - forceBodyA.position) + (1e4 : ℝ) ^ 2)) := by
  have hne : forceBodyB.position ≠ forceBodyA.position := by
    show ((3 : ℝ), (4 : ℝ)) ≠ ((0 : ℝ), (0 : ℝ))
    intro h
    have := congrArg Prod.fst h
    norm_num at this
  exact ⟨hne, (claim_C1_softened_force forceBodyA forceBodyB [] 0).2.1 hne⟩

end SolarSim

namespace SolarSim

theorem calculate_forces_self_singleton (eps : ℝ) (a c : CelestialBody) :
    calculate_forces eps a [c] 0 = (0, 0) := rfl

theorem kickBody_zero (dt : ℝ) (b : CelestialBody) :
    kickBody dt (0, 0) b = { b with force_vector := (0, 0) } := by
  rw [kickBody, vdiv_zero_vec]
  have h2 : b.velocity + (dt / 2) • ((0, 0) : ℝ × ℝ) = b.velocity := by
    have h0 : ((0, 0) : ℝ × ℝ) = 0 := rfl
    rw [h0, smul_zero, add_zero]
  rw [h2]

theorem kickAll_singleton (eps dt : ℝ) (b : CelestialBody) :
    kickAll eps dt [b] = [{ b with force_vector := (0, 0) }] := by
  rw [kickAll_eq_snapMap]
  show [kickBody dt (calculate_forces eps b [b] 0) b] = _
  rw [calculate_forces_self_singleton, kickBody_zero]

theorem driftAll_singleton (dt : ℝ) (b : CelestialBody) :
    driftAll dt [b] = [driftBody dt b] := by
  rw [driftAll_eq_map]
  rfl

theorem substepKDK_singleton (eps dt : ℝ) (b : CelestialBody) :
    substepKDK eps dt [b]
      = [{ b with force_vector := (0, 0), position := b.position + dt • b.velocity }] := by
  rw [substepKDK, kickAll_singleton eps dt b, driftAll_singleton dt, kickAll_singleton eps dt]
  rfl

theorem substep_iter_singleton (eps dt : ℝ) (b : CelestialBody) (n : ℕ) :
    (fun bs => substepKDK eps dt bs)^[n + 1] [b]
      = [{ b with
           force_vector := (0, 0)
           position := b.position + (((n + 1 : ℕ) : ℝ) * dt) • b.velocity }] := by
  induction n with
  | zero =>
    rw [Function.iterate_one]
    rw [substepKDK_singleton]
    norm_num
  | succ k ih =>
    rw [Function.iterate_succ_apply', ih, substepKDK_singleton]
    have harith : (b.position + (((k + 1 : ℕ) : ℝ) * dt) • b.velocity) + dt • b.velocity
        = b.position + (((k + 2 : ℕ) : ℝ) * dt) • b.velocity := by
      have hc : ((k + 2 : ℕ) : ℝ) = ((k + 1 : ℕ) : ℝ) + 1 := by push_cast; ring
      rw [hc, add_mul, one_mul, add_smul, add_assoc]
    rw [harith]

theorem substep_iter_singleton_total (eps d : ℝ) (b : CelestialBody) (s : ℕ) (hs : s ≠ 0) :
    (fun bs => substepKDK eps (d / (s : ℝ)) bs)^[s] [b]
      = [{ b with force_vector := (0, 0), position := b.position + d • b.velocity }] := by
  obtain ⟨n, rfl⟩ : ∃ n, s = n + 1 := ⟨s - 1, by omega⟩
  rw [substep_iter_singleton]
  have hcast : ((n + 1 : ℕ) : ℝ) ≠ 0 := Nat.cast_ne_zero.mpr (by omega)
  have hmul : ((n + 1 : ℕ) : ℝ) * (d / ((n + 1 : ℕ) : ℝ)) = d := by
    field_simp
  rw [hmul]

/-- One active physics frame on a one-body system: zero net force, the
velocity is untouched, and the position drifts by the full frame step
`TIME_STEP * time_scale` times the velocity, after which one trail
point is pushed. -/
theorem physFrame_singleton (ts : ℝ) (b : CelestialBody) :
    physFrame ts [b]
      = [updateTrail { b with
          force_vector := (0, 0)
          position := b.position + (TIME_STEP * ts) • b.velocity }] := by
  have hcc : checkCollisions [b] = ([b], []) := by
    rw [checkCollisions, checkCollisionsAux_cons_none [] [] b [] (scanPair_nil b),
      checkCollisionsAux_nil]
    simp
  rw [physFrame, updatePhysics, if_pos ⟨rfl, by decide⟩]
  show ((fun bs => substepKDK 1e4
      (TIME_STEP * ts / (substepsFor (checkCollisions [b]).1 : ℝ)) bs)^[
        substepsFor (checkCollisions [b]).1] (checkCollisions [b]).1).map updateTrail = _
  rw [hcc]
  show ((fun bs => substepKDK 1e4
      (TIME_STEP * ts / (substepsFor [b] : ℝ)) bs)^[substepsFor [b]] [b]).map updateTrail = _
  have hs : substepsFor [b] = 100 ∨ substepsFor [b] = 20 := by
    rw [substepsFor]
    by_cases hb : ([b].any (fun x => x.name == "Moon")) = true
    · rw [if_pos hb]
      exact Or.inl rfl
    · rw [if_neg hb]
      exact Or.inr rfl
  rcases hs with h | h
  · rw [h, substep_iter_singleton_total 1e4 (TIME_STEP * ts) b 100 (by norm_num)]
    rfl
  · rw [h, substep_iter_singleton_total 1e4 (TIME_STEP * ts) b 20 (by norm_num)]
    rfl

theorem updateTrail_position (b : CelestialBody) : (updateTrail b).position = b.position := by
  rw [updateTrail, apply_ite (fun x : CelestialBody => x.position)]
  show (if _ then b.position else b.position) = b.position
  exact ite_self _

theorem updateTrail_velocity (b : CelestialBody) : (updateTrail b).velocity = b.velocity := by
  rw [updateTrail, apply_ite (fun x : CelestialBody => x.velocity)]
  show (if _ then b.velocity else b.velocity) = b.velocity
  exact ite_self _

end SolarSim

namespace SolarSim

/-- Claim C8 amended: self-interaction is excluded by identity (the
self index contributes nothing), so a single-body system accumulates
zero net force and its velocity never changes; one frame drifts its
position by the frame step times its velocity, so a single body with
zero velocity does not move across any number of physics frames. -/
theorem claim_C8_amended (b : CelestialBody) (ts : ℝ) (n : ℕ) (hv : b.velocity = (0, 0)) :
    calculate_forces 1e4 b [b] 0 = (0, 0) ∧
      physFrame ts [b]
        = [updateTrail { b with
            force_vector := (0, 0)
            position := b.position + (TIME_STEP * ts) • b.velocity }] ∧
      ((fun l => physFrame ts l)^[n] [b]).map (fun x => x.position) = [b.position] ∧
      ((fun l => physFrame ts l)^[n] [b]).map (fun x => x.velocity) = [((0 : ℝ), (0 : ℝ))] := by
  have key : ∀ m : ℕ, ∃ c : CelestialBody, (fun l => physFrame ts l)^[m] [b] = [c] ∧
      c.position = b.position ∧ c.velocity = (0, 0) := by
    intro m
    induction m with
    | zero => exact ⟨b, rfl, rfl, hv⟩
    | succ k ih =>
      obtain ⟨c, hc, hp, hvv⟩ := ih
      refine ⟨updateTrail { c with
        force_vector := (0, 0)
        position := c.position + (TIME_STEP * ts) • c.velocity }, ?_, ?_, ?_⟩
      · rw [Function.iterate_succ_apply', hc, physFrame_singleton]
      · rw [updateTrail_position]
        show c.position + (TIME_STEP * ts) • c.velocity = b.position
        rw [hvv]
        have hz : (((0 : ℝ), (0 : ℝ)) : ℝ × ℝ) = 0 := rfl
        rw [hz, smul_zero, add_zero, hp]
      · rw [updateTrail_velocity]
        exact hvv
  refine ⟨calculate_forces_self_singleton 1e4 b b, physFrame_singleton ts b, ?_, ?_⟩
  · obtain ⟨c, hc, hp, hvv⟩ := key n
    rw [hc, List.map_cons, List.map_nil, hp]
  · obtain ⟨c, hc, hp, hvv⟩ := key n
    rw [hc, List.map_cons, List.map_nil, hvv]

/-- A single body at rest, witnessing the amended single-body claim. -/
noncomputable def restBody : CelestialBody := initBody "Rest" 1 (5, 0) (0, 0) 4

/-- Claim C8 amended, witness: a concrete resting single body stays at
its position across three physics frames. -/
theorem claim_C8_amended_witness :
    restBody.velocity = ((0 : ℝ), (0 : ℝ)) ∧
      ((fun l => physFrame 1 l)^[3] [restBody]).map (fun x => x.position)
        = [restBody.position] :=
  ⟨rfl, (claim_C8_amended restBody 1 3 rfl).2.2.1⟩

/-- A single moving body: one body, nonzero velocity. -/
noncomputable def soloMover : CelestialBody := initBody "Solo" 1 (0, 0) (1, 0) 5

/-- Claim C8 counterexample: a single body with velocity `(1, 0)` moves
by `TIME_STEP = 86400` metres in one physics frame although its net
force is zero, refuting "the body does not move across any number of
physics frames" for general single-body states. -/
theorem claim_C8_counterexample :
    (physFrame 1 [soloMover]).map (fun x => x.position) = [((86400 : ℝ), (0 : ℝ))] ∧
      soloMover.position = ((0 : ℝ), (0 : ℝ)) ∧
      (((86400 : ℝ), (0 : ℝ)) : ℝ × ℝ) ≠ ((0 : ℝ), (0 : ℝ)) := by
  refine ⟨?_, rfl, ?_⟩
  · rw [physFrame_singleton, List.map_cons, List.map_nil, updateTrail_position]
    congr 1
    show soloMover.position + (TIME_STEP * 1) • soloMover.velocity = ((86400 : ℝ), (0 : ℝ))
    show ((0 : ℝ), (0 : ℝ)) + (TIME_STEP * 1) • (((1 : ℝ), (0 : ℝ)) : ℝ × ℝ)
      = ((86400 : ℝ), (0 : ℝ))
    rw [TIME_STEP, Prod.smul_mk]
    have hz : (((0 : ℝ), (0 : ℝ)) : ℝ × ℝ) = 0 := rfl
    rw [hz, zero_add]
    norm_num
  · intro h
    have hfst := congrArg Prod.fst h
    norm_num at hfst

end SolarSim
